import Mathlib

/-!
Shallow embedding of the primesieve driver (`src/soe/PrimeSieve.cpp`) together
with the counting / callback semantics of its `PrimeNumberFinder`.

The repository sources contain `PrimeSieve.cpp` and `SieveOfEratosthenes.h`.
The `PrimeNumberFinder`, `PreSieve` and the three `Erat*` cross-off classes are
declared but their implementation files are absent; wherever a definition below
depends on them it is modelled from the specification and its doc comment
starts with `Modelled from the spec:`.
-/

/-- Trial-division loop: returns `true` iff no `e` with `d ≤ e` and
`e * e ≤ n` divides `n`.  The last argument is fuel bounding the recursion;
the loop stops as soon as `n < d * d`. -/
def noDivisorBelow (n : Nat) : Nat → Nat → Bool
  | _, 0 => true
  | d, fuel + 1 =>
    if n < d * d then true
    else (n % d != 0) && noDivisorBelow n (d + 1) fuel

/-- Primality of a natural number by trial division up to the square root.
This executable predicate models the mathematical notion "prime" used
throughout the specification; `isPrime_iff` ties it to `Nat.Prime`. -/
def isPrime (n : Nat) : Bool :=
  decide (2 ≤ n) && noDivisorBelow n 2 n

theorem noDivisorBelow_sound {n : Nat} :
    ∀ fuel d, noDivisorBelow n d fuel = true →
      ∀ m, d ≤ m → m < d + fuel → m * m ≤ n → n % m ≠ 0 := by
  intro fuel
  induction fuel with
  | zero => intro d _ m h1 h2 _; omega
  | succ fuel ih =>
    intro d h m h1 h2 h3
    rw [noDivisorBelow] at h
    by_cases hlt : n < d * d
    · exact absurd h3 (by have := Nat.mul_le_mul h1 h1; omega)
    · rw [if_neg hlt, Bool.and_eq_true, bne_iff_ne] at h
      rcases Nat.eq_or_lt_of_le h1 with rfl | hgt
      · exact h.1
      · exact ih (d + 1) h.2 m hgt (by omega) h3

theorem noDivisorBelow_complete {n : Nat} :
    ∀ fuel d, (∀ m, d ≤ m → m * m ≤ n → n % m ≠ 0) →
      noDivisorBelow n d fuel = true := by
  intro fuel
  induction fuel with
  | zero => intro d _; rfl
  | succ fuel ih =>
    intro d h
    rw [noDivisorBelow]
    by_cases hlt : n < d * d
    · rw [if_pos hlt]
    · rw [if_neg hlt, Bool.and_eq_true, bne_iff_ne]
      exact ⟨h d (Nat.le_refl d) (by omega),
        ih (d + 1) fun m hm hmm => h m (by omega) hmm⟩

/-- The executable primality test agrees with `Nat.Prime`. -/
theorem isPrime_iff (n : Nat) : isPrime n = true ↔ Nat.Prime n := by
  rw [Nat.prime_def_le_sqrt, isPrime, Bool.and_eq_true, decide_eq_true_eq]
  constructor
  · rintro ⟨h2, hdiv⟩
    refine ⟨h2, fun m hm hsq hdvd => ?_⟩
    have hmm : m * m ≤ n := Nat.le_sqrt.mp hsq
    have hmle : m ≤ m * m := Nat.le_mul_of_pos_left m (by omega)
    exact noDivisorBelow_sound n 2 hdiv m hm (by omega) hmm
      (Nat.mod_eq_zero_of_dvd hdvd)
  · rintro ⟨h2, hdiv⟩
    exact ⟨h2, noDivisorBelow_complete n 2 fun m hm hmm hmod =>
      hdiv m hm (Nat.le_sqrt.mpr hmm) (Nat.dvd_of_mod_eq_zero hmod)⟩

example : isPrime 2 = true := by decide
example : isPrime 1 = false := by decide
example : isPrime 25 = false := by decide
example : isPrime 97 = true := by decide

/-- Modelled from the spec: `PrimeNumberFinder`'s compile-time k-tuplet
bitmasks are not among the sources.  Per spec §4.8 and the glossary, a
k-tuplet is a constellation with a fixed admissible residue pattern inside one
30-number window, matched against the wheel residues `{7,11,13,17,19,23,29,31}`
of a single sieve byte.  For each arity (index `t = k − 1`, `t ∈ [1,6]`) this
lists the admissible patterns as (anchor residue mod 30, member offsets):
twins are the in-byte pairs at distance 2, and each larger arity consists of
the runs of consecutive wheel residues of the correct diameter
(e.g. the spec's sextuplet example `(7, 11, 13, 17, 19, 23)`). -/
def tupletPatterns : Nat → List (Nat × List Nat)
  | 1 => [(11, [0, 2]), (17, [0, 2]), (29, [0, 2])]
  | 2 => [(7, [0, 4, 6]), (11, [0, 2, 6]), (13, [0, 4, 6]), (17, [0, 2, 6])]
  | 3 => [(11, [0, 2, 6, 8])]
  | 4 => [(7, [0, 4, 6, 10, 12]), (11, [0, 2, 6, 8, 12])]
  | 5 => [(7, [0, 4, 6, 10, 12, 16])]
  | 6 => [(11, [0, 2, 6, 8, 12, 18, 20])]
  | _ => []

/-- Diameter of the tuplet patterns of type index `t` (largest member offset);
all patterns of one arity share it. -/
def tupletSpan : Nat → Nat
  | 1 => 2
  | 2 => 6
  | 3 => 8
  | 4 => 12
  | 5 => 16
  | 6 => 20
  | _ => 0

/-- Modelled from the spec: `n` anchors (is the smallest member of) a
k-tuplet of type index `t` when it lies on an admissible pattern's anchor
residue and all pattern members are prime. -/
def isTupletAnchor (t n : Nat) : Bool :=
  (tupletPatterns t).any fun p => n % 30 == p.1 && p.2.all fun o => isPrime (n + o)

/-- The hard-coded small prime / small tuplet table of `PrimeSieve::sieve()`
(`PrimeSieve.cpp` lines 352-361): entries `(min, max, type, value)` where
`value` is the numeric prime passed to callbacks for type-0 entries
(`primeStr[0] - '0'`). -/
def smallPrimeTable : List (Nat × Nat × Nat × Nat) :=
  [(2, 2, 0, 2), (3, 3, 0, 3), (5, 5, 0, 5),
   (3, 5, 1, 0), (5, 7, 1, 0), (5, 11, 2, 0), (5, 13, 3, 0), (5, 17, 4, 0)]

/-- `PrimeSieve::doSmallPrime`'s interval test: an entry is processed iff
`start_ <= min && stop_ >= max`. -/
def entryInRange (a b : Nat) (e : Nat × Nat × Nat × Nat) : Bool :=
  decide (a ≤ e.1) && decide (e.2.1 ≤ b)

/-- Count contributed for type index `t` by the manual small-prime table when
sieving `[a, b]`; the outer guard is `sieve()`'s `if (start_ <= 5)`. -/
def countEntries (t a b : Nat) : Nat :=
  if a ≤ 5 then
    ((smallPrimeTable.filter fun e => e.2.2.1 == t).countP (entryInRange a b))
  else 0

/-- Modelled from the spec: the `PrimeNumberFinder` (implementation absent)
counts, via per-segment popcount, the primes remaining on the wheel, i.e. the
primes `p ∈ [a, b]` with `p ≥ 7` (the wheel residues start at 7, spec §9;
bits outside `[start, stop]` are cleared first, spec §3). -/
def wheelPrimeCount (a b : Nat) : Nat :=
  ((Finset.Icc a b).filter fun n => 7 ≤ n ∧ isPrime n = true).card

/-- Modelled from the spec: the finder counts a k-tuplet instance via its
residue bitmask, which matches iff all member bits are set; since bits
outside `[start, stop]` are cleared before counting (spec §3), an instance
anchored at `n` is counted iff `a ≤ n` and `n + span ≤ b`. -/
def wheelTupletCount (t a b : Nat) : Nat :=
  ((Finset.Icc a b).filter fun n =>
    isTupletAnchor t n = true ∧ n + tupletSpan t ≤ b).card

/-- The prime count produced by a sieve of `[a, b]` with `COUNT_PRIMES` set:
manual table entries of type 0 plus the finder's count (the finder only runs
when `stop_ >= 7`, `PrimeSieve.cpp` line 363). -/
def countPrimesIn (a b : Nat) : Nat :=
  countEntries 0 a b + (if 7 ≤ b then wheelPrimeCount a b else 0)

/-- The k-tuplet count (type index `t = k − 1`) produced by a sieve of
`[a, b]`: manual table entries of type `t` plus the finder's count. -/
def countTupletsIn (t a b : Nat) : Nat :=
  countEntries t a b + (if 7 ≤ b then wheelTupletCount t a b else 0)

example : countPrimesIn 0 100 = 25 := by decide
example : countTupletsIn 1 0 100 = 8 := by decide
example : countTupletsIn 2 0 100 = 8 := by decide
example : countPrimesIn 2 2 = 1 := by decide
example : countPrimesIn 3 5 = 2 := by decide
example : countPrimesIn 4 4 = 0 := by decide
example : countPrimesIn 0 30 = countPrimesIn 1 30 := by decide
example : countTupletsIn 5 0 30 = 1 := by decide

/-! ### Flag constants

Modelled from the spec: `PrimeSieve.h` (which holds the enum) is absent.
Spec §4.9 and §6 give the flag order `COUNT_PRIMES … COUNT_SEPTUPLETS`,
`PRINT_PRIMES … PRINT_SEPTUPLETS`, `PRINT_STATUS` inside the 20 user-visible
bits, with the four `CALLBACK_*` internal bits above them; `getFlags` in
`PrimeSieve.cpp` masks with `(1u << 20) - 1`, and `doSmallPrime` addresses
count/print flags as `COUNT_PRIMES << type` / `PRINT_PRIMES << type`. -/

def COUNT_PRIMES : Nat := 1 <<< 0
def COUNT_TWINS : Nat := 1 <<< 1
def COUNT_SEPTUPLETS : Nat := 1 <<< 6
def PRINT_PRIMES : Nat := 1 <<< 7
def PRINT_STATUS : Nat := 1 <<< 14
def CALLBACK32_PRIMES : Nat := 1 <<< 20
def CALLBACK32_OOP_PRIMES : Nat := 1 <<< 21
def CALLBACK64_PRIMES : Nat := 1 <<< 22
def CALLBACK64_OOP_PRIMES : Nat := 1 <<< 23
def CALLBACK_FLAGS : Nat :=
  CALLBACK32_PRIMES ||| CALLBACK32_OOP_PRIMES ||| CALLBACK64_PRIMES ||| CALLBACK64_OOP_PRIMES

/-- `PrimeSieve::testFlags`: `(flags_ & flags) != 0`. -/
def testFlagsF (flags f : Nat) : Bool := flags &&& f != 0

/-! ### Driver state and operations (`PrimeSieve.cpp`) -/

/-- The mutable state of a `PrimeSieve` object.  Machine integers are
modelled as `Nat` (wrap-around is written out explicitly where the code can
overflow); the two `double` fields `status_` and `timeElapsed_` are modelled
as exact rationals. -/
structure PrimeSieveState where
  start_ : Nat
  stop_ : Nat
  sieveSize_ : Nat
  preSieveLimit_ : Nat
  flags_ : Nat
  counts_ : List Nat
  sumSegments_ : Nat
  status_ : Rat
  timeElapsed_ : Rat
deriving DecidableEq

/-- The exceptions thrown by the public API (spec §7). -/
inductive SieveError
  | invalidBound
  | invalidInterval
  | invalidFlags
  | invalidCallback
  | indexOutOfRange
deriving DecidableEq

deriving instance DecidableEq for Except

def uint64Max : Nat := 2 ^ 64 - 1
def uint32Max : Nat := 2 ^ 32 - 1

/-- `UINT64_MAX - UINT32_MAX * UINT64_C(10)`: the first value `setStart` /
`setStop` rejects. -/
def stopLimit : Nat := uint64Max - uint32Max * 10

/-- `PrimeSieve::setStart`: throws `std::invalid_argument` ("InvalidBound")
iff `start >= UINT64_MAX - UINT32_MAX * 10`. -/
def psSetStart (v : Nat) (s : PrimeSieveState) :
    Except SieveError Unit × PrimeSieveState :=
  if stopLimit ≤ v then (.error .invalidBound, s)
  else (.ok (), { s with start_ := v })

/-- `PrimeSieve::setStop`: same bound check as `setStart`. -/
def psSetStop (v : Nat) (s : PrimeSieveState) :
    Except SieveError Unit × PrimeSieveState :=
  if stopLimit ≤ v then (.error .invalidBound, s)
  else (.ok (), { s with stop_ := v })

/-- Modelled from the spec: `nextHighestPowerOf2` lives in the absent
`bithacks.h`; per the spec ("rounded up to the next highest power of 2") it
is the least power of two `≥ x` (for `x ≥ 1`). -/
def nextHighestPowerOf2 (x : Nat) : Nat := 2 ^ Nat.clog 2 x

/-- `PrimeSieve::setSieveSize`: clamp to `[1, 4096]` kilobytes, then round up
to the next power of two.  It throws nothing. -/
def psSetSieveSize (v : Nat) (s : PrimeSieveState) : PrimeSieveState :=
  let v1 := if v < 1 then 1 else v
  let v2 := if 4096 < v1 then 4096 else v1
  { s with sieveSize_ := nextHighestPowerOf2 v2 }

/-- `PrimeSieve::setPreSieveLimit`: clamp to `[13, 23]`. -/
def psSetPreSieveLimit (v : Nat) (s : PrimeSieveState) : PrimeSieveState :=
  let v1 := if v < 13 then 13 else v
  let v2 := if 23 < v1 then 23 else v1
  { s with preSieveLimit_ := v2 }

/-- `PrimeSieve::getFlags`: `flags_ & ((1u << 20) - 1)`. -/
def psGetFlags (s : PrimeSieveState) : Nat :=
  s.flags_ &&& ((1 <<< 20) - 1)

/-- `PrimeSieve::setFlags`: throws iff `flags >= (1u << 20)`. -/
def psSetFlags (f : Nat) (s : PrimeSieveState) :
    Except SieveError Unit × PrimeSieveState :=
  if (1 <<< 20) ≤ f then (.error .invalidFlags, s)
  else (.ok (), { s with flags_ := f })

/-- `PrimeSieve::getCounts`: throws `std::out_of_range` iff
`index >= COUNTS_SIZE` (7 accumulators, spec §3); it never mutates. -/
def psGetCounts (i : Nat) (s : PrimeSieveState) : Except SieveError Nat :=
  if 7 ≤ i then .error .indexOutOfRange
  else .ok (s.counts_.getD i 0)

/-- `PrimeSieve::doStatus` (console output dropped): adds the segment size to
`sumSegments_` and recomputes the percentage.  The `uint64_t` expression
`stop_ - start_ + 1` wraps modulo `2^64`; its conversion to `double` is
modelled exactly in `ℚ` (and `ℚ` division by zero yields 0 where IEEE would
yield NaN — reachable only when `stop_ + 1 = start_`). -/
def psDoStatus (seg : Nat) (s : PrimeSieveState) : PrimeSieveState :=
  let sum := (s.sumSegments_ + seg) % 2 ^ 64
  let todo : Rat := (((s.stop_ + 2 ^ 64 - s.start_ + 1) % 2 ^ 64 : Nat) : Rat)
  { s with sumSegments_ := sum, status_ := min ((sum / todo) * 100) 100 }

/-- `PrimeSieve::reset`: zero `sumSegments_` and all seven counts, set
`status_ = -1.0`, `timeElapsed_ = 0.0`, then `doStatus(0)`. -/
def psReset (s : PrimeSieveState) : PrimeSieveState :=
  psDoStatus 0
    { s with sumSegments_ := 0, counts_ := List.replicate 7 0,
             status_ := -1, timeElapsed_ := 0 }

/-- One prime delivered to every installed callback channel, mirroring the
four consecutive `if (testFlags(CALLBACK…)) callback…(prime)` statements of
`doSmallPrime`; invocations of the four channels are collected into one
list. -/
def emitsFor (flags v : Nat) : List Nat :=
  (if testFlagsF flags CALLBACK32_PRIMES then [v] else []) ++
  (if testFlagsF flags CALLBACK32_OOP_PRIMES then [v] else []) ++
  (if testFlagsF flags CALLBACK64_PRIMES then [v] else []) ++
  (if testFlagsF flags CALLBACK64_OOP_PRIMES then [v] else [])

/-- Modelled from the spec: the primes the `PrimeNumberFinder` decodes from
the sieve, in ascending order — every prime of `[a, b]` on the wheel
(i.e. `≥ 7`). -/
def wheelPrimes (a b : Nat) : List Nat :=
  (List.range (b + 1)).filter fun n => decide (a ≤ n) && decide (7 ≤ n) && isPrime n

/-- All callback invocations of one sieve run, in order: `doSmallPrime`
emits the in-range type-0 table entries (only when callback flags are set and
`start_ ≤ 5`), then the finder emits the wheel primes (only when
`stop_ ≥ 7`). -/
def sieveEmitted (flags a b : Nat) : List Nat :=
  (if a ≤ 5 then
    ((smallPrimeTable.filter fun e => e.2.2.1 == 0 && entryInRange a b e).flatMap
      fun e => if testFlagsF flags CALLBACK_FLAGS then emitsFor flags e.2.2.2 else [])
   else []) ++
  (if 7 ≤ b then (wheelPrimes a b).flatMap (emitsFor flags) else [])

/-- The value `counts_[t]` holds after a successful sieve of `[a, b]`:
0 unless flag bit `t` is set; the manual table contribution is suppressed for
`t = 0` when callback flags are active (`doSmallPrime`'s
`testFlags(CALLBACK_FLAGS) && type == 0` branch); the finder contributes only
when `stop_ ≥ 7`. -/
def sieveCountType (flags t a b : Nat) : Nat :=
  if flags &&& (1 <<< t) = 0 then 0
  else
    (if testFlagsF flags CALLBACK_FLAGS = true ∧ t = 0 then 0 else countEntries t a b) +
    (if 7 ≤ b then (if t = 0 then wheelPrimeCount a b else wheelTupletCount t a b) else 0)

/-- `PrimeSieve::sieve()`: `reset()`, then throw `InvalidInterval` if
`stop_ < start_`, then process the small-prime table and run the finder.
`elapsed` stands for the wall-clock measurement stored into `timeElapsed_`
on success.  On success the final `doStatus` forces `status_ = 100`
(source comment "make sure that status_ = 100.0 percent"); the per-segment
`sumSegments_` accounting lives in the absent engine sources and is modelled
as the full interval plus the final `doStatus(10)` increment. -/
def psSieve (elapsed : Rat) (s : PrimeSieveState) :
    Except SieveError (List Nat) × PrimeSieveState :=
  let s0 := psReset s
  if s0.stop_ < s0.start_ then (.error .invalidInterval, s0)
  else
    let a := s0.start_
    let b := s0.stop_
    let todo := (b + 2 ^ 64 - a + 1) % 2 ^ 64
    (.ok (sieveEmitted s0.flags_ a b),
     { s0 with
        counts_ := (List.range 7).map fun t => sieveCountType s0.flags_ t a b,
        sumSegments_ := (todo + 10) % 2 ^ 64,
        status_ := 100,
        timeElapsed_ := elapsed })

/-- `PrimeSieve::sieve(uint64_t, uint64_t)`: `setStart`, `setStop`, then
`sieve()`; an exception from a setter aborts before sieving. -/
def psSieveAt (elapsed : Rat) (a b : Nat) (s : PrimeSieveState) :
    Except SieveError (List Nat) × PrimeSieveState :=
  match psSetStart a s with
  | (.error e, s1) => (.error e, s1)
  | (.ok _, s1) =>
    match psSetStop b s1 with
    | (.error e, s2) => (.error e, s2)
    | (.ok _, s2) => psSieve elapsed s2

/-- `PrimeSieve::getPrimeCount(uint64_t, uint64_t)`:
`setFlags(COUNT_PRIMES); sieve(start, stop); return getPrimeCount();`. -/
def psGetPrimeCount (elapsed : Rat) (a b : Nat) (s : PrimeSieveState) :
    Except SieveError Nat × PrimeSieveState :=
  match psSetFlags COUNT_PRIMES s with
  | (.error e, s1) => (.error e, s1)
  | (.ok _, s1) =>
    match psSieveAt elapsed a b s1 with
    | (.error e, s2) => (.error e, s2)
    | (.ok _, s2) => (.ok (s2.counts_.getD 0 0), s2)

/-- The state every `generatePrimes` overload installs before sieving:
`flags_ = <the CALLBACK_* bit>;` and `setPreSieveLimit(13)`. -/
def gpSetup (cbFlag : Nat) (s : PrimeSieveState) : PrimeSieveState :=
  psSetPreSieveLimit 13 { s with flags_ := cbFlag }

/-- `PrimeSieve::generatePrimes(uint32_t, uint32_t, void (*)(uint32_t))`:
`cb` models whether the callback pointer is non-null. -/
def psGeneratePrimes32 (elapsed : Rat) (cb : Bool) (a b : Nat)
    (s : PrimeSieveState) : Except SieveError (List Nat) × PrimeSieveState :=
  if cb = false then (.error .invalidCallback, s)
  else psSieveAt elapsed a b (gpSetup CALLBACK32_PRIMES s)

/-- `generatePrimes` with `(uint32_t, void*)` callback: both the callback and
the context pointer must be non-null. -/
def psGeneratePrimes32OOP (elapsed : Rat) (cb ctx : Bool) (a b : Nat)
    (s : PrimeSieveState) : Except SieveError (List Nat) × PrimeSieveState :=
  if cb = false ∨ ctx = false then (.error .invalidCallback, s)
  else psSieveAt elapsed a b (gpSetup CALLBACK32_OOP_PRIMES s)

/-- `generatePrimes` with `(uint64_t)` callback. -/
def psGeneratePrimes64 (elapsed : Rat) (cb : Bool) (a b : Nat)
    (s : PrimeSieveState) : Except SieveError (List Nat) × PrimeSieveState :=
  if cb = false then (.error .invalidCallback, s)
  else psSieveAt elapsed a b (gpSetup CALLBACK64_PRIMES s)

/-- `generatePrimes` with `(uint64_t, void*)` callback. -/
def psGeneratePrimes64OOP (elapsed : Rat) (cb ctx : Bool) (a b : Nat)
    (s : PrimeSieveState) : Except SieveError (List Nat) × PrimeSieveState :=
  if cb = false ∨ ctx = false then (.error .invalidCallback, s)
  else psSieveAt elapsed a b (gpSetup CALLBACK64_OOP_PRIMES s)

/-- The default-constructed `PrimeSieve()`: `start_ = stop_ = 0`,
`flags_ = COUNT_PRIMES`, `setSieveSize(32)` and `setPreSieveLimit(19)`
(the `config.h` defaults quoted in the source comments), then `reset()`. -/
def initState : PrimeSieveState :=
  psReset (psSetPreSieveLimit 19 (psSetSieveSize 32
    { start_ := 0, stop_ := 0, sieveSize_ := 0, preSieveLimit_ := 0,
      flags_ := COUNT_PRIMES, counts_ := List.replicate 7 0,
      sumSegments_ := 0, status_ := 0, timeElapsed_ := 0 }))

example : (psGetPrimeCount 0 0 100 initState).1 = .ok 25 := by decide
example : (psGeneratePrimes32 0 true 0 30 initState).1 =
    .ok [2, 3, 5, 7, 11, 13, 17, 19, 23, 29] := by decide

/-! ### Interval-splitting lemmas (for C1) -/

theorem Icc_split {a c b : ℕ} (h1 : a ≤ c) (h2 : c ≤ b) :
    Finset.Icc a c ∪ Finset.Icc (c + 1) b = Finset.Icc a b := by
  ext n
  simp only [Finset.mem_union, Finset.mem_Icc]
  omega

theorem Icc_split_disjoint {a c b : ℕ} :
    Disjoint (Finset.Icc a c) (Finset.Icc (c + 1) b) := by
  rw [Finset.disjoint_left]
  intro n hn hn'
  simp only [Finset.mem_Icc] at hn hn'
  omega

theorem filter_card_split (P : ℕ → Prop) [DecidablePred P] {a c b : ℕ}
    (h1 : a ≤ c) (h2 : c ≤ b) :
    ((Finset.Icc a c).filter P).card + ((Finset.Icc (c + 1) b).filter P).card
      = ((Finset.Icc a b).filter P).card := by
  rw [← Icc_split h1 h2, Finset.filter_union, Finset.card_union_of_disjoint
    (Finset.disjoint_filter_filter Icc_split_disjoint)]

/-- Splitting the interval splits the finder's prime count exactly. -/
theorem wheelPrimeCount_split {a c b : ℕ} (h1 : a ≤ c) (h2 : c ≤ b) :
    (if 7 ≤ c then wheelPrimeCount a c else 0) +
      (if 7 ≤ b then wheelPrimeCount (c + 1) b else 0)
      = (if 7 ≤ b then wheelPrimeCount a b else 0) := by
  by_cases hc : 7 ≤ c
  · have hb : 7 ≤ b := le_trans hc h2
    rw [if_pos hc, if_pos hb, if_pos hb]
    exact filter_card_split _ h1 h2
  · by_cases hb : 7 ≤ b
    · rw [if_neg hc, if_pos hb, if_pos hb, Nat.zero_add]
      unfold wheelPrimeCount
      congr 1
      ext n
      simp only [Finset.mem_filter, Finset.mem_Icc]
      constructor
      · rintro ⟨⟨hl, hr⟩, h7, hp⟩
        exact ⟨⟨by omega, hr⟩, h7, hp⟩
      · rintro ⟨⟨hl, hr⟩, h7, hp⟩
        exact ⟨⟨by omega, hr⟩, h7, hp⟩
    · rw [if_neg hc, if_neg hb, if_neg hb]

/-- Splitting the interval can only lose finder tuplets (those whose bitmask
straddles the cut are cleared on both sides). -/
theorem wheelTupletCount_split_le {t a c b : ℕ} (h1 : a ≤ c) (h2 : c ≤ b) :
    (if 7 ≤ c then wheelTupletCount t a c else 0) +
      (if 7 ≤ b then wheelTupletCount t (c + 1) b else 0)
      ≤ (if 7 ≤ b then wheelTupletCount t a b else 0) := by
  by_cases hb : 7 ≤ b
  · rw [if_pos hb, if_pos hb]
    have main : wheelTupletCount t a c + wheelTupletCount t (c + 1) b
        ≤ wheelTupletCount t a b := by
      unfold wheelTupletCount
      rw [← Finset.card_union_of_disjoint
        (Finset.disjoint_filter_filter Icc_split_disjoint)]
      apply Finset.card_le_card
      apply Finset.union_subset
      · intro n hn
        simp only [Finset.mem_filter, Finset.mem_Icc] at hn ⊢
        exact ⟨⟨hn.1.1, by omega⟩, hn.2.1, by omega⟩
      · intro n hn
        simp only [Finset.mem_filter, Finset.mem_Icc] at hn ⊢
        exact ⟨⟨by omega, hn.1.2⟩, hn.2.1, hn.2.2⟩
    by_cases hc : 7 ≤ c
    · rw [if_pos hc]; exact main
    · rw [if_neg hc]; omega
  · have hc : ¬ 7 ≤ c := by omega
    rw [if_neg hc, if_neg hb, if_neg hb]

/-! ### Splitting the manual small-prime table counts -/

theorem countP_ext {p q : Nat × Nat × Nat × Nat → Bool}
    (l : List (Nat × Nat × Nat × Nat)) (h : ∀ e ∈ l, p e = q e) :
    l.countP p = l.countP q := by
  induction l with
  | nil => rfl
  | cons e l ih =>
    rw [List.countP_cons, List.countP_cons, h e (List.mem_cons_self e l),
      ih fun x hx => h x (List.mem_cons_of_mem e hx)]

theorem countP_rng_mono {a b b' : Nat} (hb : b ≤ b')
    (l : List (Nat × Nat × Nat × Nat)) :
    l.countP (entryInRange a b) ≤ l.countP (entryInRange a b') := by
  induction l with
  | nil => exact Nat.le_refl 0
  | cons e l ih =>
    rw [List.countP_cons, List.countP_cons]
    have : (if entryInRange a b e then 1 else 0)
        ≤ (if entryInRange a b' e then 1 else 0) := by
      simp only [entryInRange, Bool.and_eq_true, decide_eq_true_eq]
      split_ifs <;> omega
    omega

/-- Per-entry splitting is exact for point entries (`min = max`). -/
theorem countP_points_split {a c b : ℕ} (h1 : a ≤ c) (h2 : c ≤ b)
    {l : List (Nat × Nat × Nat × Nat)} (hl : ∀ e ∈ l, e.1 = e.2.1) :
    l.countP (entryInRange a c) + l.countP (entryInRange (c + 1) b)
      = l.countP (entryInRange a b) := by
  induction l with
  | nil => rfl
  | cons e l ih =>
    have he := hl e (List.mem_cons_self e l)
    have ihl := ih fun x hx => hl x (List.mem_cons_of_mem e hx)
    rw [List.countP_cons, List.countP_cons, List.countP_cons]
    have : (if entryInRange a c e then 1 else 0) +
        (if entryInRange (c + 1) b e then 1 else 0)
        = (if entryInRange a b e then 1 else 0) := by
      simp only [entryInRange, Bool.and_eq_true, decide_eq_true_eq, ← he]
      split_ifs <;> omega
    omega

/-- Per-entry splitting can only lose proper interval entries
(`min ≤ max`): an entry straddling the cut is counted on neither side. -/
theorem countP_entries_split_le {a c b : ℕ} (h1 : a ≤ c) (h2 : c ≤ b)
    {l : List (Nat × Nat × Nat × Nat)} (hl : ∀ e ∈ l, e.1 ≤ e.2.1) :
    l.countP (entryInRange a c) + l.countP (entryInRange (c + 1) b)
      ≤ l.countP (entryInRange a b) := by
  induction l with
  | nil => exact Nat.le_refl 0
  | cons e l ih =>
    have he := hl e (List.mem_cons_self e l)
    have ihl := ih fun x hx => hl x (List.mem_cons_of_mem e hx)
    rw [List.countP_cons, List.countP_cons, List.countP_cons]
    have : (if entryInRange a c e then 1 else 0) +
        (if entryInRange (c + 1) b e then 1 else 0)
        ≤ (if entryInRange a b e then 1 else 0) := by
      simp only [entryInRange, Bool.and_eq_true, decide_eq_true_eq]
      split_ifs <;> omega
    omega

/-- Splitting the interval splits the manual prime count (type 0) exactly:
type-0 entries are single points. -/
theorem countEntries_zero_split {a c b : ℕ} (h1 : a ≤ c) (h2 : c ≤ b) :
    countEntries 0 a c + countEntries 0 (c + 1) b = countEntries 0 a b := by
  unfold countEntries
  have htab : ∀ e ∈ smallPrimeTable.filter fun e => e.2.2.1 == 0,
      e.1 = e.2.1 ∧ e.2.1 ≤ 5 := by decide
  by_cases ha : a ≤ 5
  · by_cases hc : c + 1 ≤ 5
    · rw [if_pos ha, if_pos hc, if_pos (le_trans h1 (by omega))]
      exact countP_points_split h1 h2 fun e he => (htab e he).1
    · rw [if_pos ha, if_neg hc, if_pos (by omega : a ≤ 5), Nat.add_zero]
      apply countP_ext
      intro e he
      have hme := htab e he
      unfold entryInRange
      rw [decide_eq_true (show e.2.1 ≤ c by omega),
        decide_eq_true (show e.2.1 ≤ b by omega)]
  · rw [if_neg ha, if_neg (by omega : ¬ c + 1 ≤ 5), if_neg ha]

/-- Splitting the interval can only lose manual tuplet entries: an entry
straddling the cut is counted on neither side. -/
theorem countEntries_split_le {t a c b : ℕ} (h1 : a ≤ c) (h2 : c ≤ b) :
    countEntries t a c + countEntries t (c + 1) b ≤ countEntries t a b := by
  unfold countEntries
  have htab : ∀ e ∈ smallPrimeTable, e.1 ≤ e.2.1 := by decide
  have hfil : ∀ e ∈ smallPrimeTable.filter (fun e => e.2.2.1 == t), e.1 ≤ e.2.1 :=
    fun e he => htab e (List.mem_of_mem_filter he)
  by_cases ha : a ≤ 5
  · by_cases hc : c + 1 ≤ 5
    · rw [if_pos ha, if_pos hc, if_pos (le_trans h1 (by omega))]
      exact countP_entries_split_le h1 h2 hfil
    · rw [if_pos ha, if_neg hc, if_pos (by omega : a ≤ 5), Nat.add_zero]
      exact countP_rng_mono h2 _
  · rw [if_neg ha, if_neg (by omega : ¬ c + 1 ≤ 5), if_neg ha]

/-- Splitting invariance holds exactly for the prime count. -/
theorem countPrimesIn_split {a c b : ℕ} (h1 : a ≤ c) (h2 : c ≤ b) :
    countPrimesIn a c + countPrimesIn (c + 1) b = countPrimesIn a b := by
  unfold countPrimesIn
  have he := countEntries_zero_split h1 h2
  have hw := wheelPrimeCount_split h1 h2
  omega

/-- For tuplet counts splitting is only subadditive. -/
theorem countTupletsIn_split_le {t a c b : ℕ} (h1 : a ≤ c) (h2 : c ≤ b) :
    countTupletsIn t a c + countTupletsIn t (c + 1) b ≤ countTupletsIn t a b := by
  unfold countTupletsIn
  have he := countEntries_split_le (t := t) h1 h2
  have hw := wheelTupletCount_split_le (t := t) h1 h2
  omega

/-! ### Claim theorems -/

/-- C1, counterexample: the splitting equation fails for the twin count at
`a = 0`, `c = 4`, `b = 30`.  The manual twin `(3, 5)` straddles the cut and
is counted in neither sub-interval (its smallest member 3 lies in `[0, 4]`,
so under the claim's convention the equation should hold), giving
`0 + 3 ≠ 4`. -/
theorem c1_split_invariance_counterexample :
    countTupletsIn 1 0 4 + countTupletsIn 1 5 30 ≠ countTupletsIn 1 0 30 := by
  decide

/-- C1, amended: for all `a ≤ c ≤ b` with `b` below the maximum stop,
`count_primes(a, c) + count_primes(c+1, b) = count_primes(a, b)`; for each
k-tuplet count (k = 2..7, type index `t = k − 1`) only
`count(a, c) + count(c+1, b) ≤ count(a, b)` holds, because a tuplet
straddling `c` is counted in neither sub-interval (not, as claimed, in the
one containing its smallest member). -/
theorem c1_split_invariance (a c b : Nat) (h1 : a ≤ c) (h2 : c ≤ b)
    (h3 : b < stopLimit) :
    countPrimesIn a c + countPrimesIn (c + 1) b = countPrimesIn a b ∧
    ∀ t, 1 ≤ t → t ≤ 6 →
      countTupletsIn t a c + countTupletsIn t (c + 1) b ≤ countTupletsIn t a b :=
  ⟨countPrimesIn_split h1 h2, fun _t _ _ => countTupletsIn_split_le h1 h2⟩

/-- C1, witness: the amended statement instantiated at `a = 0`, `c = 10`,
`b = 30`. -/
theorem c1_split_invariance_witness :
    (0 : Nat) ≤ 10 ∧ (10 : Nat) ≤ 30 ∧ (30 : Nat) < stopLimit ∧
    (countPrimesIn 0 10 + countPrimesIn 11 30 = countPrimesIn 0 30 ∧
     ∀ t, 1 ≤ t → t ≤ 6 →
       countTupletsIn t 0 10 + countTupletsIn t 11 30 ≤ countTupletsIn t 0 30) :=
  ⟨by decide, by decide, by decide,
   c1_split_invariance 0 10 30 (by decide) (by decide) (by decide)⟩

/-- C2, counterexample: the claim says `setStop(2^64 − 10·2^32)` must raise
`InvalidBound`, but the source compares against
`UINT64_MAX - UINT32_MAX * 10 = 2^64 − 10·2^32 + 9`, so this value is
accepted. -/
theorem c2_stop_bound_counterexample :
    (psSetStop (2 ^ 64 - 10 * 2 ^ 32) initState).1 = .ok () := by decide

/-- C2, amended: `setStop(v)` (and likewise `setStart`) succeeds exactly when
`v < (2^64 − 1) − 10·(2^32 − 1) = 2^64 − 10·2^32 + 9`, and raises
`InvalidBound` (`std::invalid_argument`) otherwise; in particular the exact
maximum allowed stop `2^64 − 10·2^32 + 8` succeeds and one greater fails. -/
theorem c2_stop_bound (v : Nat) (s : PrimeSieveState) (hv : v < 2 ^ 64) :
    ((psSetStop v s).1 = .ok () ↔ v < stopLimit) ∧
    ((psSetStart v s).1 = .ok () ↔ v < stopLimit) ∧
    (psSetStop (stopLimit - 1) s).1 = .ok () ∧
    psSetStop stopLimit s = (.error .invalidBound, s) ∧
    (psSetStart (stopLimit - 1) s).1 = .ok () ∧
    psSetStart stopLimit s = (.error .invalidBound, s) ∧
    stopLimit = 2 ^ 64 - 10 * 2 ^ 32 + 9 := by
  refine ⟨?_, ?_, ?_, ?_, ?_, ?_, by decide⟩
  · unfold psSetStop
    split_ifs with h <;> simp <;> omega
  · unfold psSetStart
    split_ifs with h <;> simp <;> omega
  · unfold psSetStop
    rw [if_neg (by decide)]
  · unfold psSetStop
    rw [if_pos (Nat.le_refl _)]
  · unfold psSetStart
    rw [if_neg (by decide)]
  · unfold psSetStart
    rw [if_pos (Nat.le_refl _)]

/-- C2, witness: the amended statement instantiated at `v = 3`. -/
theorem c2_stop_bound_witness :
    (3 : Nat) < 2 ^ 64 ∧
    (((psSetStop 3 initState).1 = .ok () ↔ 3 < stopLimit) ∧
     ((psSetStart 3 initState).1 = .ok () ↔ 3 < stopLimit) ∧
     (psSetStop (stopLimit - 1) initState).1 = .ok () ∧
     psSetStop stopLimit initState = (.error .invalidBound, initState) ∧
     (psSetStart (stopLimit - 1) initState).1 = .ok () ∧
     psSetStart stopLimit initState = (.error .invalidBound, initState) ∧
     stopLimit = 2 ^ 64 - 10 * 2 ^ 32 + 9) :=
  ⟨by decide, c2_stop_bound 3 initState (by decide)⟩

/-- C3, counterexample: `sieve()` calls `reset()` *before* validating
`stop_ >= start_`, so a `sieve()` failing with `InvalidInterval` clobbers the
previously stored counts.  After `getPrimeCount(0, 100)` stored 25, setting
`start = 10`, `stop = 5` and calling `sieve()` raises the error but leaves
`counts_[0] = 0`, not 25. -/
theorem c3_no_partial_result_counterexample :
    ((psGetPrimeCount 0 0 100 initState).2.counts_.getD 0 0 = 25) ∧
    (psSieve 0 (psSetStop 5 (psSetStart 10
        (psGetPrimeCount 0 0 100 initState).2).2).2).1
      = .error .invalidInterval ∧
    (psSieve 0 (psSetStop 5 (psSetStart 10
        (psGetPrimeCount 0 0 100 initState).2).2).2).2.counts_.getD 0 0 = 0 := by
  refine ⟨by decide, by decide, by decide⟩

/-- C3, amended: every error of the public API is raised synchronously at the
call; errors raised by the setters, by `getCounts` and by a null-callback
`generatePrimes` leave the stored state unchanged, but a `sieve()` failing
with `InvalidInterval` has already run `reset()`: it leaves the object in the
reset state (all counts zeroed, `timeElapsed_ = 0`, status recomputed), with
only `start_`, `stop_`, flags and configuration preserved — the previously
stored results are discarded, not kept. -/
theorem c3_sync_errors (s : PrimeSieveState) (v f i a b : Nat) (e : Rat)
    (h1 : stopLimit ≤ v) (h2 : 2 ^ 20 ≤ f) (h3 : 7 ≤ i)
    (h4 : s.stop_ < s.start_) :
    psSetStart v s = (.error .invalidBound, s) ∧
    psSetStop v s = (.error .invalidBound, s) ∧
    psSetFlags f s = (.error .invalidFlags, s) ∧
    psGetCounts i s = .error .indexOutOfRange ∧
    psGeneratePrimes32 e false a b s = (.error .invalidCallback, s) ∧
    psGeneratePrimes32OOP e true false a b s = (.error .invalidCallback, s) ∧
    psGeneratePrimes64 e false a b s = (.error .invalidCallback, s) ∧
    psGeneratePrimes64OOP e false true a b s = (.error .invalidCallback, s) ∧
    psSieve e s = (.error .invalidInterval, psReset s) ∧
    (psReset s).counts_ = List.replicate 7 0 ∧
    (psReset s).timeElapsed_ = 0 ∧
    (psReset s).start_ = s.start_ ∧ (psReset s).stop_ = s.stop_ ∧
    (psReset s).flags_ = s.flags_ := by
  refine ⟨?_, ?_, ?_, ?_, ?_, ?_, ?_, ?_, ?_, rfl, rfl, rfl, rfl, rfl⟩
  · unfold psSetStart; rw [if_pos h1]
  · unfold psSetStop; rw [if_pos h1]
  · unfold psSetFlags; rw [if_pos (by omega : (1 <<< 20) ≤ f)]
  · unfold psGetCounts; rw [if_pos h3]
  · unfold psGeneratePrimes32; rw [if_pos rfl]
  · unfold psGeneratePrimes32OOP; rw [if_pos (Or.inr rfl)]
  · unfold psGeneratePrimes64; rw [if_pos rfl]
  · unfold psGeneratePrimes64OOP; rw [if_pos (Or.inl rfl)]
  · unfold psSieve
    rw [if_pos (show (psReset s).stop_ < (psReset s).start_ from h4)]

/-- C3, witness: the amended statement instantiated at a state with
`start_ = 10 > stop_ = 5` holding a previous count. -/
theorem c3_sync_errors_witness :
    stopLimit ≤ stopLimit ∧ (2 ^ 20 : Nat) ≤ 2 ^ 20 ∧ (7 : Nat) ≤ 7 ∧
    ({ initState with start_ := 10, stop_ := 5 } : PrimeSieveState).stop_ <
      ({ initState with start_ := 10, stop_ := 5 } : PrimeSieveState).start_ ∧
    psSetStart stopLimit { initState with start_ := 10, stop_ := 5 }
      = (.error .invalidBound, { initState with start_ := 10, stop_ := 5 }) ∧
    psSieve 0 { initState with start_ := 10, stop_ := 5 }
      = (.error .invalidInterval, psReset { initState with start_ := 10, stop_ := 5 }) ∧
    (psReset { initState with start_ := 10, stop_ := 5 }).counts_ = List.replicate 7 0 :=
  have h := c3_sync_errors { initState with start_ := 10, stop_ := 5 }
    stopLimit (2 ^ 20) 7 0 0 0 (Nat.le_refl _) (Nat.le_refl _) (Nat.le_refl _)
    (by decide)
  ⟨Nat.le_refl _, Nat.le_refl _, Nat.le_refl _, by decide, h.1,
   h.2.2.2.2.2.2.2.2.1, h.2.2.2.2.2.2.2.2.2.1⟩

/-- 165701 anchors a wheel septuplet: all of 165701 + {0,2,6,8,12,18,20}
are prime (established through `norm_num`'s primality certificates rather
than kernel evaluation of the trial division). -/
theorem anchor_165701 : isTupletAnchor 6 165701 = true := by
  have q0 : isPrime 165701 = true := (isPrime_iff _).mpr (by norm_num)
  have q1 : isPrime 165703 = true := (isPrime_iff _).mpr (by norm_num)
  have q2 : isPrime 165707 = true := (isPrime_iff _).mpr (by norm_num)
  have q3 : isPrime 165709 = true := (isPrime_iff _).mpr (by norm_num)
  have q4 : isPrime 165713 = true := (isPrime_iff _).mpr (by norm_num)
  have q5 : isPrime 165719 = true := (isPrime_iff _).mpr (by norm_num)
  have q6 : isPrime 165721 = true := (isPrime_iff _).mpr (by norm_num)
  simp [isTupletAnchor, tupletPatterns, q0, q1, q2, q3, q4, q5, q6]

/-- 1068701 anchors a wheel septuplet. -/
theorem anchor_1068701 : isTupletAnchor 6 1068701 = true := by
  have q0 : isPrime 1068701 = true := (isPrime_iff _).mpr (by norm_num)
  have q1 : isPrime 1068703 = true := (isPrime_iff _).mpr (by norm_num)
  have q2 : isPrime 1068707 = true := (isPrime_iff _).mpr (by norm_num)
  have q3 : isPrime 1068709 = true := (isPrime_iff _).mpr (by norm_num)
  have q4 : isPrime 1068713 = true := (isPrime_iff _).mpr (by norm_num)
  have q5 : isPrime 1068719 = true := (isPrime_iff _).mpr (by norm_num)
  have q6 : isPrime 1068721 = true := (isPrime_iff _).mpr (by norm_num)
  simp [isTupletAnchor, tupletPatterns, q0, q1, q2, q3, q4, q5, q6]

/-- The finder contribution alone bounds a tuplet count from below whenever
the finder runs (`stop_ >= 7`). -/
theorem countTuplets_ge_wheel (t a b : Nat) (hb : 7 ≤ b) :
    wheelTupletCount t a b ≤ countTupletsIn t a b := by
  unfold countTupletsIn
  rw [if_pos hb]
  exact Nat.le_add_left _ _

/-- The septuplet count of `[0, 10^7]` is at least 3: the wheel pattern
`(0, 2, 6, 8, 12, 18, 20)` anchored at residue 11 matches at 11, 165701 and
1068701. -/
theorem septuplet_count_lower_bound : 3 ≤ countTupletsIn 6 0 10000000 := by
  have hsub : ({11, 165701, 1068701} : Finset ℕ) ⊆
      (Finset.Icc 0 10000000).filter fun n =>
        isTupletAnchor 6 n = true ∧ n + tupletSpan 6 ≤ 10000000 := by
    intro n hn
    simp only [Finset.mem_insert, Finset.mem_singleton] at hn
    rw [Finset.mem_filter, Finset.mem_Icc]
    rcases hn with rfl | rfl | rfl
    · exact ⟨⟨Nat.zero_le _, by norm_num⟩, by decide, by decide⟩
    · exact ⟨⟨Nat.zero_le _, by norm_num⟩, anchor_165701, by decide⟩
    · exact ⟨⟨Nat.zero_le _, by norm_num⟩, anchor_1068701, by decide⟩
  have hw : 3 ≤ wheelTupletCount 6 0 10000000 :=
    le_trans
      (le_of_eq (by decide : (3 : ℕ) = ({11, 165701, 1068701} : Finset ℕ).card))
      (Finset.card_le_card hsub)
  exact le_trans hw (countTuplets_ge_wheel 6 0 10000000 (by norm_num))

/-- C4, counterexample: `count_septuplets(0, 10^7)` is not 1 (it is at least
3: the pattern at residue 11 also matches at 165701 and 1068701), and no
counted septuplet starts at 5 — the manual table of `sieve()` has no
septuplet entry and 5 is below the wheel's residue range. -/
theorem c4_septuplet_count_counterexample :
    countTupletsIn 6 0 10000000 ≠ 1 := fun h =>
  absurd (h ▸ septuplet_count_lower_bound) (by decide)

/-- C4, amended: `count_septuplets(0, 10^7) ≥ 3`; the counted septuplets are
anchored on the wheel (11, 165701 and 1068701 among them), the smallest being
the tuplet starting at 11 — not the tuplet starting at 5, which is never
counted: `countEntries 6` is 0 (the manual table has no septuplet entry) and
5 does not anchor a wheel septuplet pattern. -/
theorem c4_septuplet_count :
    3 ≤ countTupletsIn 6 0 10000000 ∧
    isTupletAnchor 6 11 = true ∧
    isTupletAnchor 6 165701 = true ∧
    isTupletAnchor 6 1068701 = true ∧
    isTupletAnchor 6 5 = false ∧
    countEntries 6 0 10000000 = 0 :=
  ⟨septuplet_count_lower_bound, by decide, anchor_165701, anchor_1068701,
   by decide, by decide⟩

/-- C5: `generatePrimes(0, 30, f)` invokes the callback exactly once per
prime of `[0, 30]`, with the values 2, 3, 5, 7, 11, 13, 17, 19, 23, 29 in
ascending order: the emitted sequence equals that list (2, 3 and 5 coming
from `doSmallPrime`, the rest from the finder), the list is strictly
ascending (hence no prime is emitted twice), and its members are exactly the
primes of `[0, 30]`. -/
theorem c5_generate_primes_0_30 :
    (psGeneratePrimes32 0 true 0 30 initState).1
      = .ok [2, 3, 5, 7, 11, 13, 17, 19, 23, 29] ∧
    List.Sorted (· < ·) [2, 3, 5, 7, 11, 13, 17, 19, 23, 29] ∧
    ∀ p, p ∈ [2, 3, 5, 7, 11, 13, 17, 19, 23, 29] ↔ (p ≤ 30 ∧ Nat.Prime p) := by
  refine ⟨by decide, by decide, fun p => ⟨fun hp => ?_, fun hp => ?_⟩⟩
  · have h : p ≤ 30 ∧ isPrime p = true := by
      fin_cases hp <;> exact ⟨by decide, by decide⟩
    exact ⟨h.1, (isPrime_iff p).mp h.2⟩
  · have hb : ∀ q : Nat, q < 31 → isPrime q = true →
        q ∈ [2, 3, 5, 7, 11, 13, 17, 19, 23, 29] := by decide
    exact hb p (by omega) ((isPrime_iff p).mpr hp.2)

/-- C6: each of the four `generatePrimes` overloads, called with a non-null
callback (and non-null context where applicable), replaces the whole flags
field with exactly its single `CALLBACK_*` bit and sets `preSieveLimit_` to
13 (via `setPreSieveLimit(13)`), and then sieves from exactly that state. -/
theorem c6_generate_setup (s : PrimeSieveState) (e : Rat) (a b : Nat) :
    ((gpSetup CALLBACK32_PRIMES s).flags_ = CALLBACK32_PRIMES ∧
     (gpSetup CALLBACK32_PRIMES s).preSieveLimit_ = 13) ∧
    ((gpSetup CALLBACK32_OOP_PRIMES s).flags_ = CALLBACK32_OOP_PRIMES ∧
     (gpSetup CALLBACK32_OOP_PRIMES s).preSieveLimit_ = 13) ∧
    ((gpSetup CALLBACK64_PRIMES s).flags_ = CALLBACK64_PRIMES ∧
     (gpSetup CALLBACK64_PRIMES s).preSieveLimit_ = 13) ∧
    ((gpSetup CALLBACK64_OOP_PRIMES s).flags_ = CALLBACK64_OOP_PRIMES ∧
     (gpSetup CALLBACK64_OOP_PRIMES s).preSieveLimit_ = 13) ∧
    psGeneratePrimes32 e true a b s
      = psSieveAt e a b (gpSetup CALLBACK32_PRIMES s) ∧
    psGeneratePrimes32OOP e true true a b s
      = psSieveAt e a b (gpSetup CALLBACK32_OOP_PRIMES s) ∧
    psGeneratePrimes64 e true a b s
      = psSieveAt e a b (gpSetup CALLBACK64_PRIMES s) ∧
    psGeneratePrimes64OOP e true true a b s
      = psSieveAt e a b (gpSetup CALLBACK64_OOP_PRIMES s) := by
  refine ⟨⟨rfl, rfl⟩, ⟨rfl, rfl⟩, ⟨rfl, rfl⟩, ⟨rfl, rfl⟩, ?_, ?_, ?_, ?_⟩
  · unfold psGeneratePrimes32
    rw [if_neg (by simp)]
  · unfold psGeneratePrimes32OOP
    rw [if_neg (by simp)]
  · unfold psGeneratePrimes64
    rw [if_neg (by simp)]
  · unfold psGeneratePrimes64OOP
    rw [if_neg (by simp)]

/-- C7: `sieve()` raises `InvalidInterval` (`std::invalid_argument`) iff the
configured stop is strictly below the configured start; otherwise it runs to
completion, returning the emitted primes; no other error is possible. -/
theorem c7_invalid_interval (s : PrimeSieveState) (e : Rat) :
    ((psSieve e s).1 = .error .invalidInterval ↔ s.stop_ < s.start_) ∧
    (s.start_ ≤ s.stop_ →
      (psSieve e s).1 = .ok (sieveEmitted s.flags_ s.start_ s.stop_)) ∧
    (∀ err, (psSieve e s).1 = .error err → err = .invalidInterval) := by
  unfold psSieve
  by_cases hlt : s.stop_ < s.start_
  · rw [if_pos (show (psReset s).stop_ < (psReset s).start_ from hlt)]
    exact ⟨⟨fun _ => hlt, fun _ => rfl⟩, fun hc => absurd hlt (by omega),
      fun err herr => (Except.error.inj herr).symm ▸ rfl⟩
  · rw [if_neg (show ¬ (psReset s).stop_ < (psReset s).start_ from hlt)]
    exact ⟨⟨fun h => absurd h (by simp), fun h => absurd h hlt⟩,
      fun _ => rfl, fun err herr => absurd herr (by simp)⟩

/-- C7, witness: at the default-constructed state (`start_ = stop_ = 0`) the
sieve completes and returns the emitted list. -/
theorem c7_invalid_interval_witness :
    initState.start_ ≤ initState.stop_ ∧
    (psSieve 0 initState).1
      = .ok (sieveEmitted initState.flags_ initState.start_ initState.stop_) :=
  ⟨by decide, (c7_invalid_interval initState 0).2.1 (by decide)⟩

/-- C8: `setSieveSize(v)` raises nothing (it is modelled total) and leaves
`sieveSize_` equal to the input clamped to `[1, 4096]` and rounded up to the
next power of two — in particular a power of two within `[1, 4096]`. -/
theorem c8_set_sieve_size (v : Nat) (s : PrimeSieveState) :
    (∃ k, (psSetSieveSize v s).sieveSize_ = 2 ^ k) ∧
    1 ≤ (psSetSieveSize v s).sieveSize_ ∧
    (psSetSieveSize v s).sieveSize_ ≤ 4096 ∧
    (psSetSieveSize v s).sieveSize_ = nextHighestPowerOf2 (min (max v 1) 4096) := by
  have hval : (psSetSieveSize v s).sieveSize_
      = nextHighestPowerOf2 (min (max v 1) 4096) := by
    show nextHighestPowerOf2
        (if 4096 < (if v < 1 then 1 else v) then 4096 else if v < 1 then 1 else v)
      = nextHighestPowerOf2 (min (max v 1) 4096)
    congr 1
    split_ifs <;> omega
  refine ⟨⟨Nat.clog 2 (min (max v 1) 4096), by rw [hval]; rfl⟩, ?_, ?_, hval⟩
  · rw [hval]
    exact Nat.one_le_two_pow
  · rw [hval]
    have h1 : min (max v 1) 4096 ≤ 2 ^ 12 := by omega
    have h2 : Nat.clog 2 (min (max v 1) 4096) ≤ 12 :=
      (Nat.le_pow_iff_clog_le (by norm_num)).mp h1
    calc 2 ^ Nat.clog 2 (min (max v 1) 4096) ≤ 2 ^ 12 :=
          Nat.pow_le_pow_right (by norm_num) h2
      _ = 4096 := by norm_num

/-- C9: `getFlags()` always returns a value below `2^20` (the mask
`(1u << 20) - 1` in the source), and the four internal `CALLBACK_*` bits
installed by `generatePrimes` sit at bits 20-23, so once installed they are
invisible through `getFlags()`. -/
theorem c9_get_flags_mask (s : PrimeSieveState) :
    psGetFlags s < 2 ^ 20 ∧
    2 ^ 20 ≤ CALLBACK32_PRIMES ∧ 2 ^ 20 ≤ CALLBACK32_OOP_PRIMES ∧
    2 ^ 20 ≤ CALLBACK64_PRIMES ∧ 2 ^ 20 ≤ CALLBACK64_OOP_PRIMES ∧
    psGetFlags (gpSetup CALLBACK32_PRIMES s) = 0 ∧
    psGetFlags (gpSetup CALLBACK32_OOP_PRIMES s) = 0 ∧
    psGetFlags (gpSetup CALLBACK64_PRIMES s) = 0 ∧
    psGetFlags (gpSetup CALLBACK64_OOP_PRIMES s) = 0 := by
  refine ⟨?_, by decide, by decide, by decide, by decide, ?_, ?_, ?_, ?_⟩
  · have hm : s.flags_ &&& ((1 <<< 20) - 1) = s.flags_ % 2 ^ 20 := by
      rw [Nat.one_shiftLeft]
      exact Nat.and_pow_two_sub_one_eq_mod s.flags_ 20
    unfold psGetFlags
    rw [hm]
    exact Nat.mod_lt _ (by norm_num)
  · exact (by decide : CALLBACK32_PRIMES &&& ((1 <<< 20) - 1) = 0)
  · exact (by decide : CALLBACK32_OOP_PRIMES &&& ((1 <<< 20) - 1) = 0)
  · exact (by decide : CALLBACK64_PRIMES &&& ((1 <<< 20) - 1) = 0)
  · exact (by decide : CALLBACK64_OOP_PRIMES &&& ((1 <<< 20) - 1) = 0)

/-! ### Helper lemmas for `getPrimeCount` (C10) -/

theorem psSieve_flags (e : Rat) (s : PrimeSieveState) :
    ((psSieve e s).2).flags_ = s.flags_ := by
  unfold psSieve
  dsimp only
  split_ifs <;> rfl

theorem psSieveAt_eq_if (e : Rat) (a b : Nat) (s : PrimeSieveState) :
    psSieveAt e a b s =
      if stopLimit ≤ a then (.error .invalidBound, s)
      else if stopLimit ≤ b then (.error .invalidBound, { s with start_ := a })
      else psSieve e { s with start_ := a, stop_ := b } := by
  unfold psSieveAt psSetStart psSetStop
  by_cases h1 : stopLimit ≤ a
  · rw [if_pos h1, if_pos h1]
  · rw [if_neg h1, if_neg h1]
    dsimp only
    by_cases h2 : stopLimit ≤ b
    · rw [if_pos h2, if_pos h2]
    · rw [if_neg h2, if_neg h2]

theorem psSieveAt_flags (e : Rat) (a b : Nat) (s : PrimeSieveState) :
    ((psSieveAt e a b s).2).flags_ = s.flags_ := by
  rw [psSieveAt_eq_if]
  split_ifs
  · rfl
  · rfl
  · exact psSieve_flags e _

theorem psGetPrimeCount_flags (e : Rat) (a b : Nat) (s : PrimeSieveState) :
    ((psGetPrimeCount e a b s).2).flags_ = COUNT_PRIMES := by
  unfold psGetPrimeCount psSetFlags
  rw [if_neg (by decide : ¬ (1 <<< 20) ≤ COUNT_PRIMES)]
  dsimp only
  have h := psSieveAt_flags e a b { s with flags_ := COUNT_PRIMES }
  cases hv : psSieveAt e a b { s with flags_ := COUNT_PRIMES } with
  | mk r s2 =>
    rw [hv] at h
    cases r with
    | error err => exact h
    | ok l => exact h

theorem psGetPrimeCount_run (e : Rat) (a b : Nat) (s : PrimeSieveState)
    (h1 : ¬ stopLimit ≤ a) (h2 : ¬ stopLimit ≤ b) (h3 : ¬ b < a) :
    psGetPrimeCount e a b s
      = (.ok (countPrimesIn a b),
         { psReset { s with flags_ := COUNT_PRIMES, start_ := a, stop_ := b } with
            counts_ := (List.range 7).map fun t => sieveCountType COUNT_PRIMES t a b,
            sumSegments_ := ((b + 2 ^ 64 - a + 1) % 2 ^ 64 + 10) % 2 ^ 64,
            status_ := 100, timeElapsed_ := e }) := by
  unfold psGetPrimeCount psSetFlags
  rw [if_neg (by decide : ¬ (1 <<< 20) ≤ COUNT_PRIMES)]
  dsimp only
  rw [psSieveAt_eq_if, if_neg h1, if_neg h2]
  unfold psSieve psReset psDoStatus
  dsimp only
  rw [if_neg h3]
  rfl

/-- C10: `getPrimeCount(start, stop)` overwrites the flags field with exactly
`COUNT_PRIMES` before sieving (discarding whatever count/print flags were
configured — shown unconditionally, also on every error path), then sieves
and returns `counts_[0]`. -/
theorem c10_get_prime_count (s : PrimeSieveState) (e : Rat) (a b : Nat)
    (h1 : a < stopLimit) (h2 : b < stopLimit) (h3 : a ≤ b) :
    (psGetPrimeCount e a b s).1 = .ok (countPrimesIn a b) ∧
    ((psGetPrimeCount e a b s).2).flags_ = COUNT_PRIMES ∧
    ((psGetPrimeCount e a b s).2).counts_.getD 0 0 = countPrimesIn a b ∧
    (∀ s2 e2 a2 b2, ((psGetPrimeCount e2 a2 b2 s2).2).flags_ = COUNT_PRIMES) := by
  have hrun := psGetPrimeCount_run e a b s (by omega) (by omega) (by omega)
  refine ⟨?_, ?_, ?_, fun s2 e2 a2 b2 => psGetPrimeCount_flags e2 a2 b2 s2⟩
  · rw [hrun]
  · rw [hrun]
    rfl
  · rw [hrun]
    rfl

/-- C10, witness: `getPrimeCount(0, 30)` on the default state returns 10 and
leaves `flags_ = COUNT_PRIMES`. -/
theorem c10_get_prime_count_witness :
    (0 : Nat) < stopLimit ∧ (30 : Nat) < stopLimit ∧ (0 : Nat) ≤ 30 ∧
    ((psGetPrimeCount 0 0 30 initState).1 = .ok (countPrimesIn 0 30) ∧
     ((psGetPrimeCount 0 0 30 initState).2).flags_ = COUNT_PRIMES ∧
     ((psGetPrimeCount 0 0 30 initState).2).counts_.getD 0 0 = countPrimesIn 0 30 ∧
     (∀ s2 e2 a2 b2, ((psGetPrimeCount e2 a2 b2 s2).2).flags_ = COUNT_PRIMES)) :=
  ⟨by decide, by decide, by decide,
   c10_get_prime_count initState 0 0 30 (by decide) (by decide) (by decide)⟩
